import Mathlib

/-!
Shallow embedding of `pyidi/pyidi.py` (class `pyIDI`): session orchestration,
method binding (`set_method`), displacement computation with rank-gated
autosave (`get_displacements`), versioned analysis directories
(`create_analysis_directory`), result persistence (`save`), session
construction (`__init__`) and the interactive grid-selection widget
(`__call__.widget_grid`).

Modelling conventions:
* State that the Python code inspects (the run directories of the analysis
  root, the session attributes) is passed and returned explicitly.
* Python exceptions are values of `PyErr`; code that can raise returns
  `Except PyErr _`, or pairs its final state with `Option PyErr` when
  mutations before the raise must be observable.
* Paths are modelled with the backslash separator of Windows: the source
  itself parses glob results by splitting on a literal backslash
  (`create_analysis_directory`), so that is the platform on which the code
  functions and which the embedding follows.
* External collaborators — the plugin classes from `pyidi.methods`,
  `pyMRAW.load_video`, `selection.get_roi_grid`, the napari viewer — are
  universally quantified parameters, mirroring the spec, which treats them
  as external capability contracts.
* The docstring rewriting done by `tools.update_docstring` is descriptive
  tooling with no effect on the data the claims concern; it is a no-op here.
-/

namespace PyIDI

/-- Python exception values distinguished by raise site and class. -/
inductive PyErr where
  /-- `ValueError` raised at `get_displacements` when no method is set. -/
  | valueErrorMethodNotSet
  /-- `ValueError` raised in `set_method` when an external constructor fails. -/
  | valueErrorInvalidIDIMethod
  /-- `ValueError` raised in `set_method` for a bad `method` argument. -/
  | valueErrorBadMethodArg
  /-- `ValueError` raised in `__init__` for an unsupported `cih_file`. -/
  | valueErrorBadCihFile
  /-- `ValueError` raised by `int()` on a non-numeric string. -/
  | valueErrorIntParse
  /-- `FileExistsError` raised by `os.mkdir` on an existing directory. -/
  | fileExistsError
  /-- `IndexError` from an out-of-range sequence subscript. -/
  | indexError
  /-- `AttributeError` from reading a missing attribute. -/
  | attributeError
  /-- Any other exception escaping an external collaborator (plugin code). -/
  | external (code : Nat)
deriving DecidableEq

/-- Classification: which modelled exceptions are Python `ValueError`s. -/
def PyErr.isValueError : PyErr → Bool
  | .valueErrorMethodNotSet => true
  | .valueErrorInvalidIDIMethod => true
  | .valueErrorBadMethodArg => true
  | .valueErrorBadCihFile => true
  | .valueErrorIntParse => true
  | _ => false

/-- The spec `InvalidMethodError` class: the `ValueError`s raised by
`set_method` for an invalid method argument or a failed external
constructor. -/
def PyErr.isInvalidMethodError : PyErr → Bool
  | .valueErrorInvalidIDIMethod => true
  | .valueErrorBadMethodArg => true
  | _ => false

/-- Python string comparison (`<=`) on character lists: lexicographic by
Unicode code point. -/
def lexLe : List Char → List Char → Bool
  | [], _ => true
  | _ :: _, [] => false
  | a :: as, b :: bs =>
    if a.toNat < b.toNat then true
    else if b.toNat < a.toNat then false
    else lexLe as bs

/-- Propositional form of `lexLe`, for use with `List.insertionSort`. -/
def LexR (a b : List Char) : Prop := lexLe a b = true

instance : DecidableRel LexR := fun a b => instDecidableEqBool (lexLe a b) true

/-- Decimal digit character for a digit value (used only with `d < 10`). -/
def digitChar : Nat → Char
  | 0 => '0'
  | 1 => '1'
  | 2 => '2'
  | 3 => '3'
  | 4 => '4'
  | 5 => '5'
  | 6 => '6'
  | 7 => '7'
  | 8 => '8'
  | _ => '9'

/-- Fuel-driven decimal digit expansion (most significant digit first). -/
def natDigitsAux : Nat → Nat → List Char
  | 0, _ => []
  | fuel + 1, n =>
    if n < 10 then [digitChar n]
    else natDigitsAux fuel (n / 10) ++ [digitChar (n % 10)]

/-- Decimal digits of a natural number, most significant first. -/
def natDigits (n : Nat) : List Char := natDigitsAux (n + 1) n

/-- Python format spec `0>3.0f` applied to an integer value: its decimal
digits, left-padded with the zero character to width 3. -/
def fmt3 (n : Nat) : List Char :=
  List.replicate (3 - (natDigits n).length) '0' ++ natDigits n

/-- Name of the run directory with index `n`: `analysis_` plus `fmt3 n`,
exactly as built by `create_analysis_directory`. -/
def runName (n : Nat) : List Char := "analysis_".data ++ fmt3 n

/-- The suffix of the glob result for the run directory with index `n`:
glob of `analysis_*/` on Windows yields the full path ending in the
directory name plus a trailing backslash.  All entries of one listing share
the analysis-root prefix, so list ordering is decided by this suffix. -/
def globEntry (n : Nat) : List Char := runName n ++ ['\\']

/-- Python `str.split(sep)` for a single-character separator: splits into
the (always non-empty) list of chunks between separator occurrences. -/
def pySplitChar (sep : Char) : List Char → List (List Char)
  | [] => [[]]
  | c :: cs =>
    match pySplitChar sep cs with
    | [] => [[]]
    | r :: rs => if c = sep then [] :: r :: rs else (c :: r) :: rs

/-- Python subscript `[-2]` on a list: second-to-last element, or
`IndexError` when the list is shorter than 2. -/
def pyNeg2 (l : List (List Char)) : Except PyErr (List Char) :=
  if h : 2 ≤ l.length then .ok (l.get ⟨l.length - 2, by omega⟩)
  else .error .indexError

/-- Membership test for a decimal digit character. -/
def isDigitB (c : Char) : Bool := decide (48 ≤ c.toNat ∧ c.toNat ≤ 57)

/-- Python `int()` on a string: parses a non-empty all-digit string, raising
`ValueError` otherwise.  (Signs, whitespace and underscore separators,
which Python also tolerates, never occur in the strings this program
parses.) -/
def pyInt (cs : List Char) : Except PyErr Nat :=
  if !cs.isEmpty && cs.all isDigitB then
    .ok (cs.foldl (fun n c => n * 10 + (c.toNat - 48)) 0)
  else .error .valueErrorIntParse

/-- Filesystem state of one video's analysis root: whether the root
directory exists, and the indices of the existing run subdirectories (in
arbitrary listing order, as returned by `glob`). -/
structure FS where
  rootExists : Bool
  runs : List Nat
deriving DecidableEq

/-- Result of `create_analysis_directory`: the filesystem afterwards, the
analysis-root name derived from the video file name, and either the index
of the run directory just created or the exception raised. -/
structure CreateOut where
  fs : FS
  rootName : String
  result : Except PyErr Nat

/-- Base name for the analysis root: `os.path.split(cih_file)[-1].split('.')[0]`,
the last path component of the video file truncated at its first dot. -/
def analysisDirBase (cihFile : String) : List Char :=
  (pySplitChar '.' ((pySplitChar '\\' cihFile.data).getLastD [])).headD []

/-- Index computation of `create_analysis_directory`: list the run
directories, and when any exist take `sorted(analyses)[-1]`, recover the
directory name as `split` on backslash subscripted `[-2]`, take the text
after the last underscore and parse it with `int`; otherwise 0. -/
def computeN (runs : List Nat) : Except PyErr Nat :=
  let analyses := runs.map globEntry
  if analyses.isEmpty then .ok 0
  else
    let last_an := (List.insertionSort LexR analyses).getLastD []
    match pyNeg2 (pySplitChar '\\' last_an) with
    | .error e => .error e
    | .ok comp => pyInt ((pySplitChar '_' comp).getLastD [])

/-- Embedding of `pyIDI.create_analysis_directory`: ensure the analysis
root `<base>_pyidi_analysis` exists, compute the next index as one plus the
suffix of the lexicographically last existing entry (0 when none exist),
and `os.mkdir` the new run directory — raising `FileExistsError` when a
directory of that name already exists. -/
def create_analysis_directory (cihFile : String) (fs : FS) : CreateOut :=
  let rootName : String := ⟨analysisDirBase cihFile ++ "_pyidi_analysis".data⟩
  let fs1 : FS := { fs with rootExists := true }
  match computeN fs1.runs with
  | .error e => ⟨fs1, rootName, .error e⟩
  | .ok n =>
    if fs1.runs.any (fun i => fmt3 i == fmt3 (n + 1)) then
      ⟨fs1, rootName, .error .fileExistsError⟩
    else
      ⟨{ fs1 with runs := fs1.runs ++ [n + 1] }, rootName, .ok (n + 1)⟩

/-- Tracked point coordinates (row, column). -/
abbrev Pt := Int × Int

/-- State of a bound method plugin that `pyIDI` inspects.  The plugin itself
is an external collaborator; only the attributes the orchestrator reads are
modelled.  The displacement array it produces is opaque to the orchestrator
and carried as an abstract token. -/
structure Plugin where
  /-- Value of `method.displacements` after `calculate_displacements`. -/
  displacements : Nat
  /-- Value of `method.process_number`; `none` models the attribute being
  absent (`hasattr` false). -/
  processNumber : Option Int
  /-- Result of `method.create_settings_dict()`. -/
  settingsDict : List (String × String)
deriving DecidableEq

/-- The session attributes of a `pyIDI` instance that the embedded
operations read or write.  `none` models an attribute not (yet) set. -/
structure Session where
  cihFile : String
  root : String
  info : List (String × String)
  methodName : Option String
  method : Option Plugin
  points : Option (List Pt)
  displacements : Option Nat
deriving DecidableEq

/-- An external plugin constructor: called with the session (`self`), it
returns a constructed plugin or raises. -/
abbrev Ctor := Session → Except PyErr Plugin

/-- Registered method short names, from `available_method_shortcuts`. -/
def availableMethodNames : List String := ["sof", "lk", "lk_scipy", "lk_scipy2"]

/-- The registry `available_methods` built in `__init__`: the fixed short
names, each mapped to its (external) plugin class constructor. -/
def mkRegistry (ctors : String → Ctor) : List (String × Ctor) :=
  availableMethodNames.map fun nm => (nm, ctors nm)

/-- Argument to `set_method`: either a string name, or a non-string object
with its observable capabilities (`callable`, `hasattr
calculate_displacements`) and its construction behaviour. -/
inductive MethodArg where
  | name (nm : String)
  | obj (isCallable : Bool) (hasCalcDisp : Bool) (ctor : Ctor)

/-- Embedding of `pyIDI.set_method`.  Returns the session afterwards —
including mutations made before a raise — and the raised exception, if any.
The docstring updates after a successful bind are descriptive only. -/
def set_method (registry : List (String × Ctor)) (s : Session) (arg : MethodArg) :
    Session × Option PyErr :=
  match arg with
  | .name nm =>
    match registry.lookup nm with
    | some ctor =>
      -- line 84: `self.method_name = method` — assigned before construction
      let s1 := { s with methodName := some nm }
      -- line 85: the construction is NOT wrapped in try/except, so a
      -- failure propagates as whatever exception the constructor raised
      match ctor s1 with
      | .ok p => ({ s1 with method := some p }, none)
      | .error e => (s1, some e)
    | none =>
      -- a string instance is not callable, so control reaches the else
      -- branch: ValueError about a bad `method` argument
      (s, some .valueErrorBadMethodArg)
  | .obj isCallable hasCalcDisp ctor =>
    if isCallable && hasCalcDisp then
      let s1 := { s with methodName := some "external_method" }
      match ctor s1 with
      | .ok p => ({ s1 with method := some p }, none)
      | .error _ =>
        -- bare `except:` — the original exception is replaced wholesale
        (s1, some .valueErrorInvalidIDIMethod)
    else (s, some .valueErrorBadMethodArg)

/-- JSON values appearing in the settings document. -/
inductive JVal where
  | jstr (s : String)
  | jdict (kvs : List (String × String))
deriving DecidableEq

/-- Output of `json.dump`: the entries in serialized order together with
the indentation width requested. -/
structure JsonDump where
  entries : List (String × JVal)
  indent : Nat
deriving DecidableEq

/-- Key ordering used by `json.dump(..., sort_keys=True)`. -/
def KeyLe (a b : String × JVal) : Prop := lexLe a.1.data b.1.data = true

instance : DecidableRel KeyLe := fun a b => instDecidableEqBool (lexLe a.1.data b.1.data) true

/-- Embedding of `json.dump(out, f, sort_keys=sortKeys, indent=indent)` for
a flat string-keyed object: entries are emitted in sorted key order when
`sortKeys` is set (Python sorts stably, and for a total order on distinct
keys any stable sort yields this list). -/
def pyJsonDump (kvs : List (String × JVal)) (sortKeys : Bool) (indent : Nat) : JsonDump :=
  ⟨if sortKeys then List.insertionSort KeyLe kvs else kvs, indent⟩

/-- Contents written into the run directory by `save`. -/
inductive FileContent where
  | blob (b : Nat)
  | pointsFile (ps : List Pt)
  | jsonFile (j : JsonDump)
deriving DecidableEq

/-- The `out` dictionary built by `save`, in its insertion order. -/
def settingsOut (now : String) (s : Session) (p : Plugin) (nm : String) :
    List (String × JVal) :=
  [("info", .jdict s.info),
   ("createdate", .jstr now),
   ("cih_file", .jstr s.cihFile),
   ("settings", .jdict p.settingsDict),
   ("method", .jstr nm)]

/-- Embedding of `pyIDI.save`: writes the three artifacts of a run into the
target directory, as (file name, content) pairs.  Reading a session
attribute that is absent raises `AttributeError`.  `now` is the timestamp
`datetime.datetime.now().strftime(...)` — an external input. -/
def save (now : String) (s : Session) (p : Plugin) :
    Except PyErr (List (String × FileContent)) :=
  match s.displacements, s.points, s.methodName with
  | some d, some pts, some nm =>
    .ok [("results.pkl", .blob d),
         ("points.pkl", .pointsFile pts),
         ("settings.txt", .jsonFile (pyJsonDump (settingsOut now s p nm) true 2))]
  | _, _, _ => .error .attributeError

/-- Observable outcome of one `get_displacements` call: the session and
filesystem afterwards, the run directories newly created by the call, the
artifacts persisted into the new run directory, whether
`clear_temp_files` was requested from the plugin, and the returned
displacements or the raised exception. -/
structure GDOut where
  session : Session
  fs : FS
  newDirs : List Nat
  saved : List (String × FileContent)
  clearRequested : Bool
  ret : Except PyErr Nat

/-- Embedding of `pyIDI.get_displacements(autosave=...)`.  With no bound
method it raises; otherwise it runs the plugin computation, stores the
displacements on the session, and — only when the plugin exposes
`process_number` equal to 0 — autosaves (when requested) and asks the
plugin to clear its temporary files. -/
def get_displacements (now : String) (s : Session) (fs : FS) (autosave : Bool) : GDOut :=
  match s.method with
  | none => ⟨s, fs, [], [], false, .error .valueErrorMethodNotSet⟩
  | some p =>
    let s1 := { s with displacements := some p.displacements }
    match p.processNumber with
    | none => ⟨s1, fs, [], [], false, .ok p.displacements⟩
    | some pn =>
      if pn = 0 then
        if autosave then
          let c := create_analysis_directory s1.cihFile fs
          match c.result with
          | .error e => ⟨s1, c.fs, [], [], false, .error e⟩
          | .ok idx =>
            match save now s1 p with
            | .error e => ⟨s1, c.fs, [idx], [], false, .error e⟩
            | .ok arts => ⟨s1, c.fs, [idx], arts, true, .ok p.displacements⟩
        else
          -- autosave false: no directory and no artifacts, but the
          -- rank-0 branch still clears temporary files
          ⟨s1, fs, [], [], true, .ok p.displacements⟩
      else ⟨s1, fs, [], [], false, .ok p.displacements⟩

/-- Constructor input `cih_file`: a string path, a numpy array with the
given shape (its element values are never inspected by `__init__`), or an
object of any other type. -/
inductive CihInput where
  | strPath (path : String)
  | ndarray (shape : List Nat)
  | other (tag : Nat)

/-- Session dimensions recorded by `__init__`. -/
structure InitOut where
  root : String
  info : List (String × String)
  N : Nat
  imageHeight : Nat
  imageWidth : Nat
deriving DecidableEq

/-- Python subscript `shape[k]`: `IndexError` when out of range. -/
def pyShapeGet (l : List Nat) (k : Nat) : Except PyErr Nat :=
  match l.get? k with
  | some v => .ok v
  | none => .error .indexError

/-- Head part of `os.path.split`: everything before the final separator.
(Drive-letter edge cases of `ntpath` are not modelled; no claim concerns
the value of the root string.) -/
def pyOsSplitHead (p : List Char) : List Char :=
  List.intercalate ['\\'] ((pySplitChar '\\' p).dropLast)

/-- Embedding of `pyIDI.__init__`.  `loadVideo` is the external
`pyMRAW.load_video` collaborator returning the metadata mapping and the
total-frame / width / height entries the constructor reads from it. -/
def pyIDI_init (loadVideo : String → List (String × String) × Nat × Nat × Nat) :
    CihInput → Except PyErr InitOut
  | .strPath p =>
    let (info, n, w, h) := loadVideo p
    .ok ⟨⟨pyOsSplitHead p.data⟩, info, n, h, w⟩
  | .ndarray shape =>
    -- root is the empty string (line 35); no dimension-count check is
    -- performed before the three shape subscripts
    match pyShapeGet shape 0 with
    | .error e => .error e
    | .ok n =>
      match pyShapeGet shape 1 with
      | .error e => .error e
      | .ok hgt =>
        match pyShapeGet shape 2 with
        | .error e => .error e
        | .ok wid => .ok ⟨"", [], n, hgt, wid⟩
  | .other _ => .error .valueErrorBadCihFile

/-- Grid-point computation of the `widget_grid` callback of
`pyIDI.__call__` (the confirm-selection button).  Viewer layer bookkeeping
has no effect on the session and is omitted; `get_roi_grid` is the
external `selection` collaborator producing the polygon-bounded grid.
Directly placed markers are modelled post-rounding as integer pairs. -/
def selectedGridPoints
    (areaSelectionData areaDeselectionData : List (List Pt))
    (pointsLayerData : List Pt)
    (get_roi_grid : List Pt → Nat × Nat → Int → List Pt → List Pt)
    (verticalROI horizontalROI : Nat) (overlapPixels : Int) : List Pt :=
  if areaSelectionData.isEmpty then
    -- individual points selection: the placed markers, rounded
    pointsLayerData
  else
    let border := areaSelectionData.headD []
    let deselect_border :=
      if areaDeselectionData.isEmpty then [] else areaDeselectionData.headD []
    get_roi_grid border (verticalROI, horizontalROI) overlapPixels deselect_border

/-- Embedding of the `widget_grid` callback of `pyIDI.__call__` (the
confirm-selection button), continued: point-set export and the empty-set
retraction. -/
def widget_grid (s : Session)
    (areaSelectionData areaDeselectionData : List (List Pt))
    (pointsLayerData : List Pt)
    (get_roi_grid : List Pt → Nat × Nat → Int → List Pt → List Pt)
    (verticalROI horizontalROI : Nat) (overlapPixels : Int) : Session :=
  let grid_points : List Pt :=
    selectedGridPoints areaSelectionData areaDeselectionData pointsLayerData
      get_roi_grid verticalROI horizontalROI overlapPixels
  -- line 318: `self.points = grid_points`
  let s1 := { s with points := some grid_points }
  -- line 328: `if len(self.points) == 0: del self.points`
  if grid_points.length = 0 then { s1 with points := none } else s1

/-! Theorems settling the claims, with their supporting lemmas. -/

theorem lexLe_refl (a : List Char) : lexLe a a = true := by
  induction a with
  | nil => rfl
  | cons x xs ih => simp [lexLe, ih]

theorem lexLe_total : ∀ a b : List Char, lexLe a b = true ∨ lexLe b a = true
  | [], _ => Or.inl rfl
  | _ :: _, [] => Or.inr rfl
  | x :: xs, y :: ys => by
    rcases Nat.lt_trichotomy x.toNat y.toNat with h | h | h
    · exact Or.inl (by simp [lexLe, h])
    · have hx : ¬ x.toNat < y.toNat := by omega
      have hy : ¬ y.toNat < x.toNat := by omega
      rcases lexLe_total xs ys with ih | ih
      · exact Or.inl (by simp [lexLe, hx, hy, ih])
      · exact Or.inr (by simp [lexLe, hx, hy, ih])
    · exact Or.inr (by simp [lexLe, h])

theorem lexLe_trans : ∀ {a b c : List Char},
    lexLe a b = true → lexLe b c = true → lexLe a c = true
  | [], _, _, _, _ => rfl
  | _ :: _, [], _, hab, _ => by simp [lexLe] at hab
  | _ :: _, _ :: _, [], _, hbc => by simp [lexLe] at hbc
  | x :: xs, y :: ys, z :: zs, hab, hbc => by
    simp only [lexLe] at hab hbc ⊢
    split_ifs at hab hbc ⊢ <;>
      first
        | rfl
        | omega
        | exact lexLe_trans hab hbc

theorem lexLe_append_left (p a b : List Char) :
    lexLe (p ++ a) (p ++ b) = lexLe a b := by
  induction p with
  | nil => rfl
  | cons c p ih => simp [lexLe, ih]

theorem getLastD_eq_getLast {α : Type} :
    ∀ (l : List α) (h : l ≠ []) (d : α), l.getLastD d = l.getLast h
  | [_], _, _ => rfl
  | a :: b :: t, _, _ => by
    rw [List.getLast_cons (List.cons_ne_nil b t)]
    exact getLastD_eq_getLast (b :: t) (List.cons_ne_nil b t) a

theorem sorted_getLast_max {r : List Char → List Char → Prop} :
    ∀ {l : List (List Char)} (_ : l.Sorted r) (h : l ≠ []) {x : List Char},
      x ∈ l → x = l.getLast h ∨ r x (l.getLast h)
  | [a], _, _, x, hx => by
    simp only [List.mem_singleton] at hx
    exact Or.inl (by simp [hx])
  | a :: b :: t, hs, _, x, hx => by
    obtain ⟨ha, hs'⟩ := List.sorted_cons.mp hs
    rw [List.getLast_cons (List.cons_ne_nil b t)]
    rcases List.mem_cons.mp hx with hxa | hxt
    · subst hxa
      exact Or.inr (ha _ (List.getLast_mem (List.cons_ne_nil b t)))
    · exact sorted_getLast_max hs' (List.cons_ne_nil b t) hxt

theorem natDigitsAux_irrel (n : Nat) : ∀ f g : Nat, n < f → n < g →
    natDigitsAux f n = natDigitsAux g n := by
  induction n using Nat.strong_induction_on with
  | _ n ih =>
    intro f g hf hg
    obtain ⟨f', rfl⟩ : ∃ f', f = f' + 1 := ⟨f - 1, by omega⟩
    obtain ⟨g', rfl⟩ : ∃ g', g = g' + 1 := ⟨g - 1, by omega⟩
    by_cases h10 : n < 10
    · simp [natDigitsAux, h10]
    · have hdiv : n / 10 < n := Nat.div_lt_self (by omega) (by omega)
      simp only [natDigitsAux, h10, if_false]
      rw [ih (n / 10) hdiv f' g' (by omega) (by omega)]

theorem natDigitsAux_succ (f n : Nat) :
    natDigitsAux (f + 1) n =
      if n < 10 then [digitChar n]
      else natDigitsAux f (n / 10) ++ [digitChar (n % 10)] := rfl

theorem natDigits_unfold (n : Nat) :
    natDigits n =
      if n < 10 then [digitChar n]
      else natDigits (n / 10) ++ [digitChar (n % 10)] := by
  show natDigitsAux (n + 1) n = _
  rw [natDigitsAux_succ]
  by_cases h10 : n < 10
  · rw [if_pos h10, if_pos h10]
  · have hdiv : n / 10 < n := Nat.div_lt_self (by omega) (by omega)
    rw [if_neg h10, if_neg h10]
    have e := natDigitsAux_irrel (n / 10) n (n / 10 + 1) hdiv (by omega)
    rw [e]
    rfl

theorem digitChar_toNat (d : Nat) (h : d ≤ 9) : (digitChar d).toNat = 48 + d := by
  interval_cases d <;> rfl

theorem natDigits_small {n : Nat} (h : n < 10) : natDigits n = [digitChar n] := by
  rw [natDigits_unfold, if_pos h]

theorem natDigits_mid {n : Nat} (h1 : 10 ≤ n) (h2 : n ≤ 99) :
    natDigits n = [digitChar (n / 10), digitChar (n % 10)] := by
  rw [natDigits_unfold, if_neg (by omega), natDigits_small (by omega)]
  rfl

theorem natDigits_three {n : Nat} (h1 : 100 ≤ n) (h2 : n ≤ 999) :
    natDigits n = [digitChar (n / 100), digitChar (n / 10 % 10), digitChar (n % 10)] := by
  rw [natDigits_unfold, if_neg (by omega), natDigits_mid (by omega) (by omega)]
  have e : n / 10 / 10 = n / 100 := by omega
  rw [e]
  rfl

theorem fmt3_triple {n : Nat} (h : n ≤ 999) :
    fmt3 n = [digitChar (n / 100), digitChar (n / 10 % 10), digitChar (n % 10)] := by
  unfold fmt3
  by_cases h10 : n < 10
  · have e1 : n / 100 = 0 := by omega
    have e2 : n / 10 % 10 = 0 := by omega
    have e3 : n % 10 = n := by omega
    rw [natDigits_small h10, e1, e2, e3]
    rfl
  · by_cases h100 : n < 100
    · have e1 : n / 100 = 0 := by omega
      have e2 : n / 10 % 10 = n / 10 := by omega
      rw [natDigits_mid (by omega) (by omega), e1, e2]
      rfl
    · rw [natDigits_three (by omega) h]
      rfl

theorem fmt3_length3 {n : Nat} (h : n ≤ 999) : (fmt3 n).length = 3 := by
  rw [fmt3_triple h]
  rfl

theorem fmt3_digit_chars {n : Nat} (h : n ≤ 999) :
    ∀ c ∈ fmt3 n, 48 ≤ c.toNat ∧ c.toNat ≤ 57 := by
  rw [fmt3_triple h]
  intro c hc
  have b1 : n / 100 ≤ 9 := by omega
  have b2 : n / 10 % 10 ≤ 9 := by omega
  have b3 : n % 10 ≤ 9 := by omega
  rcases hc with _ | ⟨_, _ | ⟨_, _ | ⟨_, h0⟩⟩⟩
  · rw [digitChar_toNat _ b1]; omega
  · rw [digitChar_toNat _ b2]; omega
  · rw [digitChar_toNat _ b3]; omega
  · cases h0

theorem globEntry_le_iff {m n : Nat} (hm : m ≤ 999) (hn : n ≤ 999) :
    LexR (globEntry m) (globEntry n) ↔ m ≤ n := by
  unfold LexR globEntry runName
  rw [List.append_assoc, List.append_assoc, lexLe_append_left]
  rw [fmt3_triple hm, fmt3_triple hn]
  have bm1 : m / 100 ≤ 9 := by omega
  have bm2 : m / 10 % 10 ≤ 9 := by omega
  have bm3 : m % 10 ≤ 9 := by omega
  have bn1 : n / 100 ≤ 9 := by omega
  have bn2 : n / 10 % 10 ≤ 9 := by omega
  have bn3 : n % 10 ≤ 9 := by omega
  simp only [List.cons_append, List.nil_append, lexLe,
    digitChar_toNat _ bm1, digitChar_toNat _ bm2, digitChar_toNat _ bm3,
    digitChar_toNat _ bn1, digitChar_toNat _ bn2, digitChar_toNat _ bn3]
  split_ifs <;> simp <;> omega

theorem pyInt_fmt3 {m : Nat} (h : m ≤ 999) : pyInt (fmt3 m) = .ok m := by
  rw [fmt3_triple h]
  have b1 : m / 100 ≤ 9 := by omega
  have b2 : m / 10 % 10 ≤ 9 := by omega
  have b3 : m % 10 ≤ 9 := by omega
  have hcond : (!([digitChar (m / 100), digitChar (m / 10 % 10),
        digitChar (m % 10)] : List Char).isEmpty &&
      [digitChar (m / 100), digitChar (m / 10 % 10), digitChar (m % 10)].all isDigitB)
        = true := by
    simp only [List.isEmpty_cons, Bool.not_false, Bool.true_and, List.all_cons,
      List.all_nil, Bool.and_true, Bool.and_eq_true, isDigitB, decide_eq_true_eq,
      digitChar_toNat _ b1, digitChar_toNat _ b2, digitChar_toNat _ b3]
    omega
  unfold pyInt
  rw [if_pos hcond]
  refine congrArg Except.ok ?_
  simp only [List.foldl, digitChar_toNat _ b1, digitChar_toNat _ b2,
    digitChar_toNat _ b3]
  omega

theorem pySplitChar_ne_nil (sep : Char) : ∀ cs : List Char, pySplitChar sep cs ≠ []
  | [] => by simp [pySplitChar]
  | c :: cs' => by
    simp only [pySplitChar]
    cases h : pySplitChar sep cs' with
    | nil => simp
    | cons r rs => by_cases hc : c = sep <;> simp [hc]

theorem pySplitChar_not_mem {sep : Char} :
    ∀ {cs : List Char}, sep ∉ cs → pySplitChar sep cs = [cs]
  | [], _ => rfl
  | c :: cs', h => by
    have hc : ¬ c = sep := fun e => h (by simp [e])
    have hcs : sep ∉ cs' := fun e => h (List.mem_cons_of_mem _ e)
    simp only [pySplitChar, pySplitChar_not_mem hcs]
    simp [hc]

theorem pySplitChar_append_sep {sep : Char} :
    ∀ (a b : List Char), sep ∉ a →
      pySplitChar sep (a ++ sep :: b) = a :: pySplitChar sep b
  | [], b, _ => by
    simp only [List.nil_append, pySplitChar]
    cases h : pySplitChar sep b with
    | nil => exact absurd h (pySplitChar_ne_nil sep b)
    | cons r rs => simp
  | c :: a', b, h => by
    have hc : ¬ c = sep := fun e => h (by simp [e])
    have ha' : sep ∉ a' := fun e => h (List.mem_cons_of_mem _ e)
    have ih := pySplitChar_append_sep a' b ha'
    simp only [List.cons_append, pySplitChar]
    cases hsc : pySplitChar sep (a' ++ sep :: b) with
    | nil => exact absurd hsc (pySplitChar_ne_nil sep _)
    | cons r rs =>
      rw [hsc] at ih
      injection ih with h1 h2
      simp [hc, h1, h2]

theorem pySplitChar_length (sep : Char) :
    ∀ cs : List Char, (pySplitChar sep cs).length = cs.count sep + 1
  | [] => rfl
  | c :: cs' => by
    have ih := pySplitChar_length sep cs'
    simp only [pySplitChar]
    cases h : pySplitChar sep cs' with
    | nil => exact absurd h (pySplitChar_ne_nil sep cs')
    | cons r rs =>
      rw [h] at ih
      by_cases hc : c = sep <;> simp_all [List.count_cons]

theorem getLastD_irrel {α : Type} {l : List α} (h : l ≠ []) (a b : α) :
    l.getLastD a = l.getLastD b := by
  rw [getLastD_eq_getLast l h a, getLastD_eq_getLast l h b]

theorem getLastD_pySplitChar {sep : Char} :
    ∀ (d t : List Char), sep ∉ t →
      (pySplitChar sep (d ++ sep :: t)).getLastD [] = t
  | [], t, ht => by
    have hstep := pySplitChar_append_sep [] t (List.not_mem_nil sep)
    rw [List.nil_append] at hstep
    rw [List.nil_append, hstep, pySplitChar_not_mem ht]
    rfl
  | c :: d', t, ht => by
    have ih := getLastD_pySplitChar d' t ht
    have hlen := pySplitChar_length sep (d' ++ sep :: t)
    have hsepmem : sep ∈ d' ++ sep :: t := by simp
    have hcount : 0 < (d' ++ sep :: t).count sep := List.count_pos_iff.mpr hsepmem
    cases h : pySplitChar sep (d' ++ sep :: t) with
    | nil => exact absurd h (pySplitChar_ne_nil sep _)
    | cons r rs =>
      rw [h] at ih hlen
      have hrs : rs ≠ [] := by
        intro hnil
        rw [hnil] at hlen
        simp only [List.length_cons, List.length_nil] at hlen
        omega
      have hstep : pySplitChar sep ((c :: d') ++ sep :: t) =
          if c = sep then [] :: r :: rs else (c :: r) :: rs := by
        simp only [List.cons_append, pySplitChar, List.append_eq, h]
      rw [hstep]
      by_cases hc : c = sep
      · rw [if_pos hc, List.getLastD_cons]
        exact ih
      · rw [if_neg hc]
        calc ((c :: r) :: rs).getLastD [] = rs.getLastD (c :: r) :=
              List.getLastD_cons _ _ _
          _ = rs.getLastD r := getLastD_irrel hrs _ _
          _ = (r :: rs).getLastD [] := (List.getLastD_cons _ _ _).symm
          _ = t := ih

theorem mem_le_foldrMax {l : List Nat} {x : Nat} (hx : x ∈ l) :
    x ≤ l.foldr max 0 := by
  induction l with
  | nil => cases hx
  | cons a t ih =>
    rcases List.mem_cons.mp hx with rfl | hxt
    · exact Nat.le_max_left _ _
    · exact le_trans (ih hxt) (Nat.le_max_right _ _)

theorem foldrMax_le {l : List Nat} {m : Nat} (h : ∀ j ∈ l, j ≤ m) :
    l.foldr max 0 ≤ m := by
  induction l with
  | nil => exact Nat.zero_le m
  | cons a t ih =>
    exact Nat.max_le.mpr ⟨h a (by simp), ih fun j hj => h j (List.mem_cons_of_mem _ hj)⟩

theorem backslash_not_mem_runName {m : Nat} (h : m ≤ 999) : '\\' ∉ runName m := by
  unfold runName
  intro hmem
  rcases List.mem_append.mp hmem with h1 | h2
  · exact absurd h1 (by decide)
  · have hb := fmt3_digit_chars h _ h2
    have hv : ('\\' : Char).toNat = 92 := rfl
    omega

theorem underscore_not_mem_fmt3 {m : Nat} (h : m ≤ 999) : '_' ∉ fmt3 m := by
  intro hmem
  have hb := fmt3_digit_chars h _ hmem
  have hv : ('_' : Char).toNat = 95 := rfl
  omega

theorem runName_split_underscore {m : Nat} (h : m ≤ 999) :
    pySplitChar '_' (runName m) = ["analysis".data, fmt3 m] := by
  have hrn : runName m = "analysis".data ++ '_' :: fmt3 m := rfl
  rw [hrn, pySplitChar_append_sep "analysis".data (fmt3 m) (by decide),
    pySplitChar_not_mem (underscore_not_mem_fmt3 h)]

theorem computeN_bounded (runs : List Nat) (h999 : ∀ i ∈ runs, i ≤ 999) :
    computeN runs = .ok (runs.foldr max 0) := by
  cases runs with
  | nil => rfl
  | cons a t =>
    haveI : IsTotal (List Char) LexR := ⟨lexLe_total⟩
    haveI : IsTrans (List Char) LexR := ⟨fun _ _ _ hxy hyz => lexLe_trans hxy hyz⟩
    have hs := List.sorted_insertionSort LexR ((a :: t).map globEntry)
    have hperm := List.perm_insertionSort LexR ((a :: t).map globEntry)
    have hsne : List.insertionSort LexR ((a :: t).map globEntry) ≠ [] := by
      intro hnil
      have hlen := hperm.length_eq
      rw [hnil] at hlen
      simp at hlen
    have hlastmem : (List.insertionSort LexR ((a :: t).map globEntry)).getLast hsne
        ∈ (a :: t).map globEntry := hperm.mem_iff.mp (List.getLast_mem hsne)
    obtain ⟨m, hm_mem, hm_eq⟩ := List.mem_map.mp hlastmem
    have hm999 : m ≤ 999 := h999 m hm_mem
    have hmax : ∀ j ∈ a :: t, j ≤ m := by
      intro j hj
      have hjmem : globEntry j ∈ List.insertionSort LexR ((a :: t).map globEntry) :=
        hperm.mem_iff.mpr (List.mem_map_of_mem _ hj)
      have hr : LexR (globEntry j) (globEntry m) := by
        rcases sorted_getLast_max hs hsne hjmem with heq | hrel
        · rw [heq, ← hm_eq]
          exact lexLe_refl _
        · rw [← hm_eq] at hrel
          exact hrel
      exact (globEntry_le_iff (h999 j hj) hm999).mp hr
    have hM : (a :: t).foldr max 0 = m :=
      le_antisymm (foldrMax_le hmax) (mem_le_foldrMax hm_mem)
    have hlastD : (List.insertionSort LexR ((a :: t).map globEntry)).getLastD []
        = globEntry m := by
      rw [getLastD_eq_getLast _ hsne]
      exact hm_eq.symm
    have hsplit1 : pySplitChar '\\' (globEntry m) = [runName m, []] := by
      show pySplitChar '\\' (runName m ++ '\\' :: []) = _
      rw [pySplitChar_append_sep (runName m) [] (backslash_not_mem_runName hm999)]
      rfl
    have hneg2 : pyNeg2 [runName m, []] = .ok (runName m) := rfl
    simp only [computeN]
    rw [if_neg (by simp)]
    rw [hlastD, hsplit1, hneg2]
    show pyInt ((pySplitChar '_' (runName m)).getLastD []) = .ok ((a :: t).foldr max 0)
    rw [runName_split_underscore hm999]
    show pyInt (fmt3 m) = .ok ((a :: t).foldr max 0)
    rw [pyInt_fmt3 hm999, hM]

theorem collision_false (runs : List Nat) (h999 : ∀ i ∈ runs, i ≤ 999) :
    (runs.any fun i => fmt3 i == fmt3 (runs.foldr max 0 + 1)) = false := by
  rw [← Bool.not_eq_true, List.any_eq_true]
  rintro ⟨i, hi, hbeq⟩
  have heq : fmt3 i = fmt3 (runs.foldr max 0 + 1) := eq_of_beq hbeq
  have hiM : i ≤ runs.foldr max 0 := mem_le_foldrMax hi
  have hi999 := h999 i hi
  by_cases hM : runs.foldr max 0 + 1 ≤ 999
  · have h2 : LexR (globEntry (runs.foldr max 0 + 1)) (globEntry i) := by
      unfold LexR globEntry runName
      rw [← heq]
      exact lexLe_refl _
    have := (globEntry_le_iff hM hi999).mp h2
    omega
  · have hf : runs.foldr max 0 ≤ 999 := foldrMax_le h999
    have h1000 : runs.foldr max 0 + 1 = 1000 := by omega
    rw [h1000] at heq
    have hlen : (fmt3 i).length = 3 := fmt3_length3 hi999
    rw [heq] at hlen
    have hlen1000 : (fmt3 1000).length = 4 := rfl
    omega

theorem create_bounded (cf : String) (fs : FS) (h999 : ∀ i ∈ fs.runs, i ≤ 999) :
    create_analysis_directory cf fs =
      ⟨⟨true, fs.runs ++ [fs.runs.foldr max 0 + 1]⟩,
        ⟨analysisDirBase cf ++ "_pyidi_analysis".data⟩,
        .ok (fs.runs.foldr max 0 + 1)⟩ := by
  have hN : computeN ({ fs with rootExists := true } : FS).runs
      = .ok (fs.runs.foldr max 0) := computeN_bounded fs.runs h999
  have hC := collision_false fs.runs h999
  simp only [create_analysis_directory, hN, hC, Bool.false_eq_true, if_false]

theorem create_rootName (cf : String) (fs : FS) :
    (create_analysis_directory cf fs).rootName =
      ⟨analysisDirBase cf ++ "_pyidi_analysis".data⟩ := by
  simp only [create_analysis_directory]
  cases hc : computeN ({ fs with rootExists := true } : FS).runs with
  | error e => rfl
  | ok n =>
    by_cases h : (({ fs with rootExists := true } : FS).runs.any
        fun i => fmt3 i == fmt3 (n + 1)) = true <;> simp [h]

/-- C4: for every session with no bound plugin, invoking
`get_displacements` fails with the `MethodNotSetError` of the spec — the
`ValueError` complaining that the IDI method has not yet been set. -/
theorem c4_method_not_set (now : String) (s : Session) (fs : FS) (autosave : Bool)
    (h : s.method = none) :
    (get_displacements now s fs autosave).ret = .error .valueErrorMethodNotSet ∧
    PyErr.isValueError .valueErrorMethodNotSet = true := by
  refine ⟨?_, rfl⟩
  simp [get_displacements, h]

theorem c4_witness :
    (get_displacements "t" ⟨"C:\\v.cih", "C:", [], none, none, none, none⟩
        ⟨false, []⟩ true).ret = .error .valueErrorMethodNotSet ∧
    PyErr.isValueError .valueErrorMethodNotSet = true :=
  c4_method_not_set "t" ⟨"C:\\v.cih", "C:", [], none, none, none, none⟩ ⟨false, []⟩ true rfl

/-- C9: for a bound plugin with no `process_number` attribute,
`get_displacements` with `autosave = true` performs no persistence and no
cleanup — no run directory, no artifacts, no `clear_temp_files` — and only
sets the session displacements and returns them. -/
theorem c9_no_rank_no_effects (now : String) (s : Session) (fs : FS) (p : Plugin)
    (hm : s.method = some p) (hpn : p.processNumber = none) :
    get_displacements now s fs true =
      ⟨{ s with displacements := some p.displacements }, fs, [], [], false,
        .ok p.displacements⟩ := by
  simp [get_displacements, hm, hpn]

theorem c9_witness :
    get_displacements "t"
        ⟨"C:\\v.cih", "C:", [], some "sof", some ⟨5, none, []⟩, some [(1, 2)], none⟩
        ⟨true, [1]⟩ true =
      ⟨⟨"C:\\v.cih", "C:", [], some "sof", some ⟨5, none, []⟩, some [(1, 2)], some 5⟩,
        ⟨true, [1]⟩, [], [], false, .ok 5⟩ :=
  c9_no_rank_no_effects "t"
    ⟨"C:\\v.cih", "C:", [], some "sof", some ⟨5, none, []⟩, some [(1, 2)], none⟩
    ⟨true, [1]⟩ ⟨5, none, []⟩ rfl rfl

/-- C5: binding an object without the `calculate_displacements` capability
fails with the bad-argument `ValueError` (the spec `InvalidMethodError`),
and so does binding by a string name absent from the method registry. -/
theorem c5_invalid_binding (ctors : String → Ctor) (s : Session) :
    (∀ (isCallable : Bool) (ctor : Ctor),
        (set_method (mkRegistry ctors) s (.obj isCallable false ctor)).2 =
          some .valueErrorBadMethodArg) ∧
    (∀ nm : String, nm ∉ availableMethodNames →
        (set_method (mkRegistry ctors) s (.name nm)).2 =
          some .valueErrorBadMethodArg) ∧
    PyErr.isInvalidMethodError .valueErrorBadMethodArg = true := by
  refine ⟨fun isCallable ctor => ?_, fun nm hnm => ?_, rfl⟩
  · simp [set_method]
  · simp only [availableMethodNames, List.mem_cons, List.not_mem_nil, or_false,
      not_or] at hnm
    obtain ⟨h1, h2, h3, h4⟩ := hnm
    have e1 : (nm == "sof") = false := beq_eq_false_iff_ne.mpr h1
    have e2 : (nm == "lk") = false := beq_eq_false_iff_ne.mpr h2
    have e3 : (nm == "lk_scipy") = false := beq_eq_false_iff_ne.mpr h3
    have e4 : (nm == "lk_scipy2") = false := beq_eq_false_iff_ne.mpr h4
    simp [set_method, mkRegistry, availableMethodNames, List.lookup, e1, e2, e3, e4]

theorem c5_witness :
    (set_method (mkRegistry fun _ => fun _ => .ok ⟨0, none, []⟩)
        ⟨"C:\\v.cih", "C:", [], none, none, none, none⟩
        (.obj true false fun _ => .ok ⟨0, none, []⟩)).2 =
      some .valueErrorBadMethodArg ∧
    (set_method (mkRegistry fun _ => fun _ => .ok ⟨0, none, []⟩)
        ⟨"C:\\v.cih", "C:", [], none, none, none, none⟩
        (.name "bogus")).2 = some .valueErrorBadMethodArg ∧
    PyErr.isInvalidMethodError .valueErrorBadMethodArg = true := by
  have h := c5_invalid_binding (fun _ => fun _ => .ok ⟨0, none, []⟩)
    ⟨"C:\\v.cih", "C:", [], none, none, none, none⟩
  exact ⟨h.1 true _, h.2.1 "bogus" (by decide), h.2.2⟩

/-- C3 counterexample: binding by the registered name `sof` with a plugin
constructor that raises leaves the constructor's own exception to
propagate — it is not re-raised as the spec `InvalidMethodError` (the
registered-name branch of `set_method` has no try/except). -/
theorem c3_counterexample :
    (set_method (mkRegistry fun _ => fun _ => .error (.external 7))
        ⟨"C:\\v.cih", "C:", [], none, none, none, none⟩ (.name "sof")).2 =
      some (.external 7) ∧
    PyErr.isInvalidMethodError (.external 7) = false :=
  ⟨rfl, rfl⟩

/-- C3 amended: only for bindings by a supplied object is a constructor
failure caught and re-raised as the spec `InvalidMethodError`; bindings by
registered name let the constructor's exception propagate unchanged (see
the counterexample). -/
theorem c3_object_ctor_reraised (registry : List (String × Ctor)) (s : Session)
    (ctor : Ctor) (e : PyErr)
    (h : ctor { s with methodName := some "external_method" } = .error e) :
    (set_method registry s (.obj true true ctor)).2 =
      some .valueErrorInvalidIDIMethod ∧
    PyErr.isInvalidMethodError .valueErrorInvalidIDIMethod = true := by
  refine ⟨?_, rfl⟩
  simp [set_method, h]

theorem c3_witness :
    (set_method (mkRegistry fun _ => fun _ => .error (.external 9))
        ⟨"C:\\v.cih", "C:", [], none, none, none, none⟩
        (.obj true true fun _ => .error (.external 9))).2 =
      some .valueErrorInvalidIDIMethod ∧
    PyErr.isInvalidMethodError .valueErrorInvalidIDIMethod = true :=
  c3_object_ctor_reraised (mkRegistry fun _ => fun _ => .error (.external 9))
    ⟨"C:\\v.cih", "C:", [], none, none, none, none⟩
    (fun _ => .error (.external 9)) (.external 9) rfl

/-- C10: whenever `set_method` fails — unregistered name, object lacking
the capability, or a raising constructor — the `method` attribute is left
exactly as it was, so a previously bound plugin stays bound; the
`method_name` attribute, however, can already have been overwritten before
the failure, as the concrete second part shows. -/
theorem c10_failed_binding_preserves_method :
    (∀ (registry : List (String × Ctor)) (s : Session) (arg : MethodArg) (e : PyErr),
        (set_method registry s arg).2 = some e →
        (set_method registry s arg).1.method = s.method) ∧
    (set_method (mkRegistry fun _ => fun _ => .error (.external 3))
        ⟨"C:\\v.cih", "C:", [], some "old", none, none, none⟩
        (.name "sof")).1.methodName = some "sof" := by
  refine ⟨fun registry s arg e h => ?_, rfl⟩
  match arg with
  | .name nm =>
    cases hl : registry.lookup nm with
    | none => simp [set_method, hl]
    | some ctor =>
      cases hc : ctor { s with methodName := some nm } with
      | ok p => simp [set_method, hl, hc] at h
      | error e' => simp [set_method, hl, hc]
  | .obj isCallable hasCalcDisp ctor =>
    cases hcap : isCallable && hasCalcDisp with
    | false => simp [set_method, hcap]
    | true =>
      cases hc : ctor { s with methodName := some "external_method" } with
      | ok p => simp [set_method, hcap, hc] at h
      | error e' => simp [set_method, hcap, hc]

theorem c10_witness :
    (set_method (mkRegistry fun _ => fun _ => .error (.external 3))
        ⟨"C:\\v.cih", "C:", [], some "old", some ⟨4, none, []⟩, none, none⟩
        (.name "sof")).1.method = some ⟨4, none, []⟩ :=
  c10_failed_binding_preserves_method.1
    (mkRegistry fun _ => fun _ => .error (.external 3))
    ⟨"C:\\v.cih", "C:", [], some "old", some ⟨4, none, []⟩, none, none⟩
    (.name "sof") (.external 3) rfl

/-- C8: when the grid selection confirmed in the interactive widget
produces an empty point set, the session is left without a point set — the
`points` attribute is deleted right after being assigned. -/
theorem c8_empty_selection (s : Session)
    (areaSelectionData areaDeselectionData : List (List Pt))
    (pointsLayerData : List Pt)
    (get_roi_grid : List Pt → Nat × Nat → Int → List Pt → List Pt)
    (verticalROI horizontalROI : Nat) (overlapPixels : Int)
    (h : selectedGridPoints areaSelectionData areaDeselectionData pointsLayerData
          get_roi_grid verticalROI horizontalROI overlapPixels = []) :
    (widget_grid s areaSelectionData areaDeselectionData pointsLayerData
        get_roi_grid verticalROI horizontalROI overlapPixels).points = none := by
  simp [widget_grid, h]

theorem c8_witness :
    (widget_grid ⟨"C:\\v.cih", "C:", [], none, none, none, none⟩
        [[(0, 0), (0, 4), (4, 4)]] [] [] (fun _ _ _ _ => []) 5 5 0).points = none :=
  c8_empty_selection ⟨"C:\\v.cih", "C:", [], none, none, none, none⟩
    [[(0, 0), (0, 4), (4, 4)]] [] [] (fun _ _ _ _ => []) 5 5 0 rfl

/-- C7 counterexample: a 4-D array — neither a string nor a 3-D array —
does not fail at all: construction succeeds using the first three shape
entries; and a 2-D array fails with `IndexError`, which is not a
`ValueError`-class failure. -/
theorem c7_counterexample :
    pyIDI_init (fun _ => ([], 0, 0, 0)) (.ndarray [2, 3, 4, 5]) =
      .ok ⟨"", [], 2, 3, 4⟩ ∧
    pyIDI_init (fun _ => ([], 0, 0, 0)) (.ndarray [5, 7]) = .error .indexError ∧
    PyErr.isValueError .indexError = false :=
  ⟨rfl, rfl, rfl⟩

/-- C7 amended: an input that is neither a string nor an ndarray fails with
a `ValueError`-class failure; an ndarray with at least three dimensions
constructs successfully with frame count `shape[0]`, height `shape[1]` and
width `shape[2]`; an ndarray with fewer than three dimensions fails with
`IndexError` instead. -/
theorem c7_init_behaviour
    (loadVideo : String → List (String × String) × Nat × Nat × Nat) :
    (∀ tag : Nat,
        pyIDI_init loadVideo (.other tag) = .error .valueErrorBadCihFile ∧
        PyErr.isValueError .valueErrorBadCihFile = true) ∧
    (∀ (a b c : Nat) (rest : List Nat),
        pyIDI_init loadVideo (.ndarray (a :: b :: c :: rest)) = .ok ⟨"", [], a, b, c⟩) ∧
    (∀ shape : List Nat, shape.length < 3 →
        pyIDI_init loadVideo (.ndarray shape) = .error .indexError) := by
  refine ⟨fun tag => ⟨rfl, rfl⟩, fun a b c rest => rfl, fun shape hlen => ?_⟩
  match shape, hlen with
    | [], _ => rfl
    | [a], _ => rfl
    | [a, b], _ => rfl

/-- C2 counterexample: with existing run indices 999 and 1000 the
versioner does not create index `max(existing) + 1 = 1001`: the
lexicographically last glob entry is `analysis_999`, so it recomputes
index 1000 and `os.mkdir` fails with `FileExistsError`. -/
theorem c2_counterexample :
    (create_analysis_directory "C:\\data\\v.cih" ⟨true, [999, 1000]⟩).result =
      .error .fileExistsError ∧
    List.foldr max 0 [999, 1000] + 1 = 1001 :=
  ⟨rfl, rfl⟩

/-- C2 (amended): on an empty analysis root three sequential invocations
create run indices 1, 2, 3; in general, the invocation derives the next
index from the integer suffix of the lexicographically greatest existing
run name, which equals `max(existing) + 1` (or 1 when none exist)
provided every existing index is at most 999 — beyond that the
lexicographic and numeric maxima can differ and creation can collide (see
the counterexample); indices up to 999 are zero-padded to width 3, and
the analysis root is named `<video_basename>_pyidi_analysis`. -/
theorem c2_versioning :
    ((create_analysis_directory "C:\\data\\video.cih" ⟨false, []⟩).result = .ok 1 ∧
      (create_analysis_directory "C:\\data\\video.cih"
        (create_analysis_directory "C:\\data\\video.cih" ⟨false, []⟩).fs).result =
          .ok 2 ∧
      (create_analysis_directory "C:\\data\\video.cih"
        (create_analysis_directory "C:\\data\\video.cih"
          (create_analysis_directory "C:\\data\\video.cih" ⟨false, []⟩).fs).fs).result =
          .ok 3) ∧
    (∀ (cf : String) (fs : FS), (∀ i ∈ fs.runs, i ≤ 999) →
      (create_analysis_directory cf fs).result = .ok (fs.runs.foldr max 0 + 1) ∧
      (create_analysis_directory cf fs).fs.runs =
        fs.runs ++ [fs.runs.foldr max 0 + 1]) ∧
    (∀ k : Nat, k ≤ 999 → (fmt3 k).length = 3) ∧
    (∀ (cf : String) (fs : FS) (d b e : List Char),
      cf.data = d ++ '\\' :: (b ++ '.' :: e) → '\\' ∉ b ++ '.' :: e → '.' ∉ b →
      (create_analysis_directory cf fs).rootName = ⟨b ++ "_pyidi_analysis".data⟩) := by
  refine ⟨⟨rfl, rfl, rfl⟩, fun cf fs h999 => ?_, fun k hk => fmt3_length3 hk,
    fun cf fs d b e hpath hsep hdot => ?_⟩
  · rw [create_bounded cf fs h999]
    exact ⟨rfl, rfl⟩
  · have hbase : analysisDirBase cf = b := by
      unfold analysisDirBase
      rw [hpath, getLastD_pySplitChar d _ hsep,
        pySplitChar_append_sep b e hdot]
      rfl
    rw [create_rootName, hbase]

theorem c2_witness :
    (create_analysis_directory "C:\\a\\v.cih" ⟨true, [2, 10, 5]⟩).result = .ok 11 ∧
    (fmt3 11).length = 3 ∧
    (create_analysis_directory "C:\\a\\v.cih" ⟨true, []⟩).rootName =
      "v_pyidi_analysis" := by
  have h := c2_versioning
  refine ⟨(h.2.1 "C:\\a\\v.cih" ⟨true, [2, 10, 5]⟩ (by decide)).1,
    h.2.2.1 11 (by decide), ?_⟩
  exact h.2.2.2 "C:\\a\\v.cih" ⟨true, []⟩ "C:\\a".data "v".data "cih".data
    rfl (by decide) (by decide)

/-- C1: with a bound plugin, `get_displacements(autosave=True)` acts by
rank: on `process_number == 0` exactly one new versioned run directory is
created, the three artifacts are persisted into it and `clear_temp_files`
is requested; on `process_number != 0` the computed displacements are
returned with zero new directories and nothing persisted. -/
theorem c1_autosave_by_rank (now : String) (s : Session) (fs : FS) (p : Plugin)
    (pts : List Pt) (nm : String)
    (hm : s.method = some p) (hpts : s.points = some pts)
    (hnm : s.methodName = some nm) (hfs : ∀ i ∈ fs.runs, i ≤ 999) :
    (p.processNumber = some 0 →
      (get_displacements now s fs true).newDirs = [fs.runs.foldr max 0 + 1] ∧
      (get_displacements now s fs true).fs.runs =
        fs.runs ++ [fs.runs.foldr max 0 + 1] ∧
      (get_displacements now s fs true).saved.map Prod.fst =
        ["results.pkl", "points.pkl", "settings.txt"] ∧
      (get_displacements now s fs true).clearRequested = true ∧
      (get_displacements now s fs true).ret = .ok p.displacements) ∧
    (∀ pn : Int, p.processNumber = some pn → pn ≠ 0 →
      get_displacements now s fs true =
        ⟨{ s with displacements := some p.displacements }, fs, [], [], false,
          .ok p.displacements⟩) := by
  constructor
  · intro hpn
    have hcreate := create_bounded s.cihFile fs hfs
    simp only [get_displacements, hm, hpn, if_pos, hcreate, save, hpts, hnm]
    exact ⟨trivial, trivial, rfl, trivial, trivial⟩
  · intro pn hpn hne
    simp only [get_displacements, hm, hpn]
    rw [if_neg hne]

theorem c1_witness :
    (get_displacements "ts"
        ⟨"C:\\v.cih", "C:", [], some "sof", some ⟨7, some 0, []⟩, some [(1, 2)], none⟩
        ⟨false, []⟩ true).newDirs = [1] ∧
    (get_displacements "ts"
        ⟨"C:\\v.cih", "C:", [], some "sof", some ⟨7, some 0, []⟩, some [(1, 2)], none⟩
        ⟨false, []⟩ true).fs.runs = [1] ∧
    (get_displacements "ts"
        ⟨"C:\\v.cih", "C:", [], some "sof", some ⟨7, some 0, []⟩, some [(1, 2)], none⟩
        ⟨false, []⟩ true).saved.map Prod.fst =
      ["results.pkl", "points.pkl", "settings.txt"] ∧
    (get_displacements "ts"
        ⟨"C:\\v.cih", "C:", [], some "sof", some ⟨7, some 0, []⟩, some [(1, 2)], none⟩
        ⟨false, []⟩ true).clearRequested = true ∧
    (get_displacements "ts"
        ⟨"C:\\v.cih", "C:", [], some "sof", some ⟨7, some 0, []⟩, some [(1, 2)], none⟩
        ⟨false, []⟩ true).ret = .ok 7 :=
  (c1_autosave_by_rank "ts"
    ⟨"C:\\v.cih", "C:", [], some "sof", some ⟨7, some 0, []⟩, some [(1, 2)], none⟩
    ⟨false, []⟩ ⟨7, some 0, []⟩ [(1, 2)] "sof" rfl rfl rfl (by simp)).1 rfl

/-- C6: every successful persistence writes exactly the three artifacts
`results.pkl`, `points.pkl` and `settings.txt`, the latter a JSON document
with exactly the keys `cih_file`, `createdate`, `info`, `method`,
`settings` in sorted order at indent 2, whose `method` entry is the bound
method name; and every successful bind sets that name to a registry key
or to the `external_method` marker. -/
theorem c6_save_artifacts (now : String) (s : Session) (p : Plugin) (d : Nat)
    (pts : List Pt) (nm : String)
    (hd : s.displacements = some d) (hpts : s.points = some pts)
    (hnm : s.methodName = some nm) :
    save now s p = .ok
      [("results.pkl", .blob d),
       ("points.pkl", .pointsFile pts),
       ("settings.txt", .jsonFile
         ⟨[("cih_file", .jstr s.cihFile),
           ("createdate", .jstr now),
           ("info", .jdict s.info),
           ("method", .jstr nm),
           ("settings", .jdict p.settingsDict)], 2⟩)] ∧
    (∀ (ctors : String → Ctor) (s0 : Session) (arg : MethodArg),
      (set_method (mkRegistry ctors) s0 arg).2 = none →
      ∃ nm0, (set_method (mkRegistry ctors) s0 arg).1.methodName = some nm0 ∧
        (nm0 ∈ availableMethodNames ∨ nm0 = "external_method")) := by
  constructor
  · simp only [save, hd, hpts, hnm]
    rfl
  · intro ctors s0 arg hok
    match arg with
    | .name nm0 =>
      cases hl : (mkRegistry ctors).lookup nm0 with
      | none => simp [set_method, hl] at hok
      | some ctor =>
        have hmem : nm0 ∈ availableMethodNames := by
          simp only [mkRegistry, availableMethodNames, List.map, List.lookup] at hl
          by_cases h1 : (nm0 == "sof") = true
          · simp [availableMethodNames, eq_of_beq h1]
          · simp only [Bool.not_eq_true] at h1
            simp only [h1] at hl
            by_cases h2 : (nm0 == "lk") = true
            · simp [availableMethodNames, eq_of_beq h2]
            · simp only [Bool.not_eq_true] at h2
              simp only [h2] at hl
              by_cases h3 : (nm0 == "lk_scipy") = true
              · simp [availableMethodNames, eq_of_beq h3]
              · simp only [Bool.not_eq_true] at h3
                simp only [h3] at hl
                by_cases h4 : (nm0 == "lk_scipy2") = true
                · simp [availableMethodNames, eq_of_beq h4]
                · simp only [Bool.not_eq_true] at h4
                  simp only [h4] at hl
                  exact Option.noConfusion hl
        cases hc : ctor { s0 with methodName := some nm0 } with
        | ok pl =>
          refine ⟨nm0, ?_, Or.inl hmem⟩
          simp [set_method, hl, hc]
        | error e => simp [set_method, hl, hc] at hok
    | .obj isCallable hasCalcDisp ctor =>
      cases hcap : isCallable && hasCalcDisp with
      | false => simp [set_method, hcap] at hok
      | true =>
        cases hc : ctor { s0 with methodName := some "external_method" } with
        | ok pl =>
          refine ⟨"external_method", ?_, Or.inr rfl⟩
          simp [set_method, hcap, hc]
        | error e => simp [set_method, hcap, hc] at hok

theorem c6_witness :
    save "ts" ⟨"C:\\v.cih", "C:", [("fps", "50")], some "sof", none, some [(1, 2)],
        some 7⟩ ⟨7, some 0, [("roi", "9")]⟩ = .ok
      [("results.pkl", .blob 7),
       ("points.pkl", .pointsFile [(1, 2)]),
       ("settings.txt", .jsonFile
         ⟨[("cih_file", .jstr "C:\\v.cih"),
           ("createdate", .jstr "ts"),
           ("info", .jdict [("fps", "50")]),
           ("method", .jstr "sof"),
           ("settings", .jdict [("roi", "9")])], 2⟩)] :=
  (c6_save_artifacts "ts"
    ⟨"C:\\v.cih", "C:", [("fps", "50")], some "sof", none, some [(1, 2)], some 7⟩
    ⟨7, some 0, [("roi", "9")]⟩ 7 [(1, 2)] "sof" rfl rfl rfl).1

theorem c7_witness :
    pyIDI_init (fun _ => ([], 0, 0, 0)) (.ndarray [50, 64, 66]) =
      .ok ⟨"", [], 50, 64, 66⟩ ∧
    pyIDI_init (fun _ => ([], 0, 0, 0)) (.ndarray [9]) = .error .indexError := by
  have h := c7_init_behaviour (fun _ => ([], 0, 0, 0))
  exact ⟨h.2.1 50 64 66 [], h.2.2 [9] (by decide)⟩

end PyIDI
